import Mathlib

/-!
Shallow embedding of the realtime synchronization core of the spacenotes
repository: the `apply` reducer of `src/hooks/useRealtimeDocState.ts`
(action protocol, pending-update buffer, presence maps), together with the
send-gating predicate, the room identity and the local edit handlers of the
newer revision of the same hook.

JavaScript objects keyed by string (the pending-update buffer, the cursor
and selection maps) are embedded as association lists with insert-or-replace
(`setk`), first-match lookup (`getk`) and key removal (`delk`), matching the
object-spread / indexed-assignment / `delete` operations of the source.
`Object.assign` on partial node fragments is embedded field by field with
`Option` types: a present field overwrites, an absent field keeps the old
value.
-/

namespace Spacenotes

/-- Modelled from the spec: the node type `CanvasNode` lives in
`src/types/canvas.ts`, which is not part of the provided sources. Per the
spec a node is `{ id, position, size?, content, ...freeform display
attributes }` with identity given by `id` and every other field
independently last-writer-wins; the testable properties address positions
through top-level `x`/`y` fields. We embed the identity field plus a
representative set of last-writer-wins fields. -/
structure CanvasNode where
  id : String
  x : Int
  y : Int
  content : String
deriving DecidableEq, Repr

/-- A `Partial<CanvasNode>`: every field optional. `Object.assign` copies
exactly the present fields. -/
structure NodeProps where
  id : Option String := none
  x : Option Int := none
  y : Option Int := none
  content : Option String := none
deriving DecidableEq, Repr

/-- `Object.assign(node, props)`: fields present in `props` overwrite the
node's fields, absent fields are kept. -/
def assignNode (n : CanvasNode) (p : NodeProps) : CanvasNode :=
  { id := p.id.getD n.id
    x := p.x.getD n.x
    y := p.y.getD n.y
    content := p.content.getD n.content }

/-- `Object.assign(pending, props)` on two fragments: fields present in
`p` win, fields absent in `p` fall back to `q` (last-writer-wins per
field). -/
def assignProps (q p : NodeProps) : NodeProps :=
  { id := p.id.orElse (fun _ => q.id)
    x := p.x.orElse (fun _ => q.x)
    y := p.y.orElse (fun _ => q.y)
    content := p.content.orElse (fun _ => q.content) }

/-- An edge of the canvas graph: `{ id, fromNode, toNode }`. -/
structure Edge where
  id : String
  fromNode : String
  toNode : String
deriving DecidableEq, Repr

/-- The document: `{ id, title, userId, backgroundColor, nodes, edges }`.
`userId` is the recorded owner (empty string when the document has no
owner, matching JavaScript falsiness of the absent value). -/
structure Doc where
  id : String
  title : String
  userId : String
  backgroundColor : String
  nodes : List CanvasNode
  edges : List Edge
deriving DecidableEq, Repr

/-- The closed action protocol of `useRealtimeChannel`'s `RealtimeAction`:
one variant per `type` discriminator handled by `apply`. -/
inductive RealtimeAction where
  | nodeCreate (node : CanvasNode)
  | nodeUpdate (id : String) (props : NodeProps)
  | nodeDelete (id : String)
  | edgeCreate (edge : Edge)
  | edgeDelete (fromId : String) (toId : String)
  | spaceBackground (color : String)
  | spaceTitle (title : String)
  | cursorMove (x : Int) (y : Int) (color : String)
  | nodeSelect (ids : List String) (color : String)
deriving DecidableEq, Repr

/-- A presence cursor entry `{ x, y, color }`. -/
structure Cursor where
  x : Int
  y : Int
  color : String
deriving DecidableEq, Repr

/-- First-match lookup in a string-keyed association list, the embedding of
JavaScript property access `m[k]` (`none` = `undefined`). -/
def getk {α : Type} : List (String × α) → String → Option α
  | [], _ => none
  | p :: rest, k => if p.1 = k then some p.2 else getk rest k

/-- Insert-or-replace, the embedding of `m[k] = v` and of the object spread
`{ ...m, [k]: v }`: an existing key keeps its position and gets the new
value, a fresh key is appended. -/
def setk {α : Type} : List (String × α) → String → α → List (String × α)
  | [], k, v => [(k, v)]
  | p :: rest, k, v => if p.1 = k then (k, v) :: rest else p :: setk rest k v

/-- Key removal, the embedding of `delete m[k]`. -/
def delk {α : Type} (m : List (String × α)) (k : String) : List (String × α) :=
  m.filter (fun p => p.1 != k)

/-- `nodes.find(n => n.id === i)` followed by in-place `Object.assign`:
the first node whose id matches gets the fragment merged, all other nodes
are untouched. -/
def assignFirst : List CanvasNode → String → NodeProps → List CanvasNode
  | [], _, _ => []
  | n :: rest, i, p =>
    if n.id = i then assignNode n p :: rest else n :: assignFirst rest i p

/-- The full client-side synchronization state of the hook: the document,
the two presence maps (cursors by sender, selections by sender) and the
pending-update buffer `pendingUpdates`. -/
structure RTState where
  doc : Doc
  cursors : List (String × Cursor)
  selections : List (String × List String)
  pendingUpdates : List (String × NodeProps)
deriving DecidableEq, Repr

/-- The `apply` reducer of `useRealtimeDocState`: translates one incoming
action (with its sender identity) into a state transition, switching on the
action's `type` exactly as the source's `switch` does. -/
def apply (s : RTState) (action : RealtimeAction) (sender : String) : RTState :=
  match action with
  | .nodeCreate node =>
    let newNodes := s.doc.nodes ++ [node]
    match getk s.pendingUpdates node.id with
    | some pending =>
      { s with
        doc := { s.doc with nodes := assignFirst newNodes node.id pending }
        pendingUpdates := delk s.pendingUpdates node.id }
    | none => { s with doc := { s.doc with nodes := newNodes } }
  | .nodeUpdate i props =>
    if s.doc.nodes.any (fun n => n.id == i) then
      { s with doc := { s.doc with nodes := assignFirst s.doc.nodes i props } }
    else
      let pending := (getk s.pendingUpdates i).getD {}
      { s with pendingUpdates := setk s.pendingUpdates i (assignProps pending props) }
  | .nodeDelete i =>
    { s with
      doc := { s.doc with
        nodes := s.doc.nodes.filter (fun n => n.id != i)
        edges := s.doc.edges.filter (fun e => e.fromNode != i && e.toNode != i) }
      pendingUpdates := delk s.pendingUpdates i }
  | .edgeCreate edge =>
    { s with doc := { s.doc with edges := s.doc.edges ++ [edge] } }
  | .edgeDelete f t =>
    { s with doc := { s.doc with
      edges := s.doc.edges.filter (fun e => !(e.fromNode == f && e.toNode == t)) } }
  | .spaceBackground color =>
    { s with doc := { s.doc with backgroundColor := color } }
  | .spaceTitle title =>
    { s with doc := { s.doc with title := title } }
  | .cursorMove x y color =>
    { s with cursors := setk s.cursors sender ⟨x, y, color⟩ }
  | .nodeSelect ids color =>
    { s with
      selections := setk s.selections sender ids
      cursors := setk s.cursors sender
        ⟨((getk s.cursors sender).map Cursor.x).getD 0,
         ((getk s.cursors sender).map Cursor.y).getD 0,
         color⟩ }

/-- Folding `apply` over a finite ordered sequence of (action, sender)
pairs: one client's run over an observed action sequence. -/
def applyAll (s : RTState) (acts : List (RealtimeAction × String)) : RTState :=
  acts.foldl (fun st a => apply st a.1 a.2) s

/-- The send-gating predicate of the `canSendRef` effect:
`!doc.userId || doc.userId === userId || !!sessionToken`, with JavaScript
string falsiness embedded as emptiness. -/
def canSend (docUserId userId sessionToken : String) : Bool :=
  docUserId == "" || docUserId == userId || sessionToken != ""

/-- `sendIfAllowed`: the list of outbound actions a local edit produces —
the action itself when sending is permitted, nothing otherwise. -/
def sendIfAllowed (cs : Bool) (action : RealtimeAction) : List RealtimeAction :=
  if cs then [action] else []

/-- The room identity computed by the hook:
`sessionToken ? (docId + ":" + sessionToken) : ''`. -/
def roomId (docId sessionToken : String) : String :=
  if sessionToken != "" then docId ++ ":" ++ sessionToken else ""

/-- Modelled from the spec: the document-store mutation surface
(`useDocState`'s `onNodeCreate`, `onNodeUpdate`, `onNodeDelete`,
`onDisconnect`, `onBackgroundColorChange`), which is not part of the
provided sources. Per the spec the reducer bridge uses "the same mutation
surface normal local edits use", so a local edit mutates the document
exactly as the corresponding remote action does; presence actions never
mutate the document. -/
def applyDoc (d : Doc) (a : RealtimeAction) : Doc :=
  match a with
  | .nodeCreate node => { d with nodes := d.nodes ++ [node] }
  | .nodeUpdate i props =>
    if d.nodes.any (fun n => n.id == i) then
      { d with nodes := assignFirst d.nodes i props }
    else d
  | .nodeDelete i =>
    { d with
      nodes := d.nodes.filter (fun n => n.id != i)
      edges := d.edges.filter (fun e => e.fromNode != i && e.toNode != i) }
  | .edgeCreate edge => { d with edges := d.edges ++ [edge] }
  | .edgeDelete f t =>
    { d with edges := d.edges.filter (fun e => !(e.fromNode == f && e.toNode == t)) }
  | .spaceBackground color => { d with backgroundColor := color }
  | .spaceTitle title => { d with title := title }
  | .cursorMove _ _ _ => d
  | .nodeSelect _ _ => d

/-- A local edit handler of the hook: optimistically mutate the local
document, then broadcast the action through `sendIfAllowed`. -/
def localEdit (cs : Bool) (d : Doc) (a : RealtimeAction) : Doc × List RealtimeAction :=
  (applyDoc d a, sendIfAllowed cs a)

/-- An action kind is a create when it is `node:create` or `edge:create`;
every other kind is the complement addressed by the idempotence contract. -/
def isCreate : RealtimeAction → Bool
  | .nodeCreate _ => true
  | .edgeCreate _ => true
  | _ => false

/-- A small concrete document used to instantiate the theorems on explicit
inputs. -/
def sampleDoc : Doc :=
  { id := "D", title := "t", userId := "U1", backgroundColor := "bg"
    nodes := [⟨"n1", 1, 2, "a"⟩, ⟨"n2", 3, 4, "b"⟩]
    edges := [⟨"e1", "n1", "n2"⟩, ⟨"e2", "n2", "n3"⟩] }

/-- A concrete synchronization state built on `sampleDoc`, with empty
presence maps and an empty pending-update buffer. -/
def sampleState : RTState :=
  { doc := sampleDoc, cursors := [], selections := [], pendingUpdates := [] }

/-- A concrete state whose document has an edge referencing node id `n1`
while no node with id `n1` exists (a dangling edge, reachable e.g. through
a single unvalidated `edge:create`). -/
def danglingState : RTState :=
  { doc := { id := "D", title := "t", userId := "U1", backgroundColor := "bg"
             nodes := [], edges := [⟨"e1", "n1", "n2"⟩] }
    cursors := [], selections := [], pendingUpdates := [] }

theorem getD_getD {α : Type} (o : Option α) (d : α) : o.getD (o.getD d) = o.getD d := by
  cases o <;> rfl

theorem orElse_absorb {α : Type} (o : Option α) (g : Unit → Option α) :
    o.orElse (fun _ => o.orElse g) = o.orElse g := by
  cases o <;> rfl

theorem getk_setk_self {α : Type} (m : List (String × α)) (k : String) (v : α) :
    getk (setk m k v) k = some v := by
  induction m with
  | nil => simp [setk, getk]
  | cons p rest ih =>
    by_cases h : p.1 = k
    · simp [setk, h, getk]
    · simp [setk, h, getk, ih]

theorem getk_setk_ne {α : Type} (m : List (String × α)) (k k' : String) (v : α)
    (h : k' ≠ k) : getk (setk m k v) k' = getk m k' := by
  induction m with
  | nil => simp [setk, getk, Ne.symm h]
  | cons p rest ih =>
    by_cases h1 : p.1 = k
    · rw [setk, if_pos h1, getk, if_neg (Ne.symm h), getk,
        if_neg (show ¬p.1 = k' from fun hh => (Ne.symm h) (h1.symm.trans hh))]
    · rw [setk, if_neg h1, getk, getk]
      by_cases h2 : p.1 = k'
      · rw [if_pos h2, if_pos h2]
      · rw [if_neg h2, if_neg h2, ih]

theorem setk_setk {α : Type} (m : List (String × α)) (k : String) (a b : α) :
    setk (setk m k a) k b = setk m k b := by
  induction m with
  | nil => simp [setk]
  | cons p rest ih =>
    by_cases h : p.1 = k
    · simp [setk, h]
    · simp [setk, h, ih]

theorem delk_cons_eq {α : Type} (p : String × α) (rest : List (String × α))
    (k : String) (h : p.1 = k) : delk (p :: rest) k = delk rest k := by
  have hb : (p.1 != k) = false := by simp [h]
  simp only [delk, List.filter_cons, hb, Bool.false_eq_true, if_false]

theorem delk_cons_ne {α : Type} (p : String × α) (rest : List (String × α))
    (k : String) (h : ¬p.1 = k) : delk (p :: rest) k = p :: delk rest k := by
  have hb : (p.1 != k) = true := by simp [h]
  simp only [delk, List.filter_cons, hb, if_true]

theorem getk_delk_self {α : Type} (m : List (String × α)) (k : String) :
    getk (delk m k) k = none := by
  induction m with
  | nil => simp [delk, getk]
  | cons p rest ih =>
    by_cases h : p.1 = k
    · rw [delk_cons_eq p rest k h]; exact ih
    · rw [delk_cons_ne p rest k h, getk, if_neg h]; exact ih

theorem getk_delk_ne {α : Type} (m : List (String × α)) (k k' : String)
    (h : k' ≠ k) : getk (delk m k) k' = getk m k' := by
  induction m with
  | nil => simp [delk, getk]
  | cons p rest ih =>
    by_cases h1 : p.1 = k
    · have h2 : ¬p.1 = k' := fun hh => (Ne.symm h) (h1.symm.trans hh)
      rw [delk_cons_eq p rest k h1, getk, if_neg h2]; exact ih
    · rw [delk_cons_ne p rest k h1, getk, getk]
      by_cases h2 : p.1 = k'
      · rw [if_pos h2, if_pos h2]
      · rw [if_neg h2, if_neg h2, ih]

theorem filter_idem {α : Type} (p : α → Bool) (l : List α) :
    (l.filter p).filter p = l.filter p := by
  induction l with
  | nil => rfl
  | cons a rest ih =>
    by_cases h : p a = true
    · rw [List.filter_cons, if_pos h, List.filter_cons, if_pos h, ih]
    · rw [List.filter_cons, if_neg h, ih]

theorem delk_delk {α : Type} (m : List (String × α)) (k : String) :
    delk (delk m k) k = delk m k :=
  filter_idem _ m

theorem assignNode_idem (n : CanvasNode) (p : NodeProps) :
    assignNode (assignNode n p) p = assignNode n p := by
  simp [assignNode, getD_getD]

theorem assignProps_absorb (q p : NodeProps) :
    assignProps (assignProps q p) p = assignProps q p := by
  simp [assignProps, orElse_absorb]

theorem assignNode_id (n : CanvasNode) (p : NodeProps) (i : String)
    (hp : p.id = none ∨ p.id = some i) (hn : n.id = i) :
    (assignNode n p).id = i := by
  rcases hp with hp | hp <;> simp [assignNode, hp, hn]

theorem assignFirst_length (ns : List CanvasNode) (i : String) (p : NodeProps) :
    (assignFirst ns i p).length = ns.length := by
  induction ns with
  | nil => rfl
  | cons n rest ih =>
    by_cases h : n.id = i <;> simp [assignFirst, h, ih]

theorem any_assignFirst (ns : List CanvasNode) (i : String) (p : NodeProps)
    (hp : p.id = none ∨ p.id = some i) :
    (assignFirst ns i p).any (fun n => n.id == i) = ns.any (fun n => n.id == i) := by
  induction ns with
  | nil => rfl
  | cons n rest ih =>
    by_cases h : n.id = i
    · simp [assignFirst, h, assignNode_id n p i hp h]
    · simp [assignFirst, h, ih]

theorem assignFirst_idem (ns : List CanvasNode) (i : String) (p : NodeProps)
    (hp : p.id = none ∨ p.id = some i) :
    assignFirst (assignFirst ns i p) i p = assignFirst ns i p := by
  induction ns with
  | nil => rfl
  | cons n rest ih =>
    by_cases h : n.id = i
    · simp [assignFirst, h, assignNode_id n p i hp h, assignNode_idem]
    · simp [assignFirst, h, ih]

theorem apply_nodeCreate_no_pending (s : RTState) (node : CanvasNode) (w : String)
    (hp : getk s.pendingUpdates node.id = none) :
    apply s (.nodeCreate node) w =
      { s with doc := { s.doc with nodes := s.doc.nodes ++ [node] } } := by
  simp only [apply, hp]

theorem apply_nodeCreate_pending (s : RTState) (node : CanvasNode) (w : String)
    (p : NodeProps) (hp : getk s.pendingUpdates node.id = some p) :
    apply s (.nodeCreate node) w =
      { s with
        doc := { s.doc with nodes := assignFirst (s.doc.nodes ++ [node]) node.id p }
        pendingUpdates := delk s.pendingUpdates node.id } := by
  simp only [apply, hp]

theorem assignFirst_append_not_mem (ns : List CanvasNode) (node : CanvasNode)
    (i : String) (p : NodeProps) (hn : ∀ m ∈ ns, m.id ≠ i) (hi : node.id = i) :
    assignFirst (ns ++ [node]) i p = ns ++ [assignNode node p] := by
  induction ns with
  | nil => simp [assignFirst, hi]
  | cons n rest ih =>
    have h1 : n.id ≠ i := hn n (List.mem_cons_self n rest)
    simp only [List.cons_append, assignFirst, h1, if_neg h1]
    simp [ih (fun m hm => hn m (List.mem_cons_of_mem n hm))]

/-- Claim C1: determinism/convergence of the reducer — for every initial
state (document, presence maps, empty pending-update buffer) and every
finite ordered sequence of actions with sender identities, two independent
runs that apply the same sequence through `apply` produce structurally
equal final documents. -/
theorem C1_convergence (d1 d2 : Doc) (c1 c2 : List (String × Cursor))
    (l1 l2 : List (String × List String)) (acts : List (RealtimeAction × String))
    (hd : d1 = d2) (hc : c1 = c2) (hl : l1 = l2) :
    (applyAll ⟨d1, c1, l1, []⟩ acts).doc = (applyAll ⟨d2, c2, l2, []⟩ acts).doc := by
  subst hd; subst hc; subst hl; rfl

/-- Witness for C1 at a concrete initial document and action sequence. -/
theorem C1_convergence_witness :
    (applyAll ⟨⟨"D", "t", "u", "bg", [], []⟩, [], [], []⟩
      [(.nodeCreate ⟨"n1", 0, 0, ""⟩, "a"), (.nodeUpdate "n1" { x := some 5 }, "b")]).doc =
    (applyAll ⟨⟨"D", "t", "u", "bg", [], []⟩, [], [], []⟩
      [(.nodeCreate ⟨"n1", 0, 0, ""⟩, "a"), (.nodeUpdate "n1" { x := some 5 }, "b")]).doc :=
  C1_convergence _ _ _ _ _ _ _ rfl rfl rfl

/-- Counterexample to claim C7 as stated: with no session token established
the joined channel identity is the empty string, not the document id. -/
theorem C7_counterexample : roomId "D1" "" = "" ∧ roomId "D1" "" ≠ "D1" := by
  constructor
  · rfl
  · intro h
    exact absurd h (by decide)

/-- Claim C7 (amended): the channel identity equals
`${documentId}:${sessionToken}` when a session token has been established,
and equals the empty string (not the document id) when no session token is
established. -/
theorem C7_room_identity (docId tok : String) :
    roomId docId tok = if tok = "" then "" else docId ++ ":" ++ tok := by
  by_cases h : tok = "" <;> simp [roomId, h]

/-- Claim C9: applying `edge:delete{from,to}` removes exactly the edges
whose `(fromNode, toNode)` pair equals `(from, to)` — all of them, if
several exist — and leaves every edge with a different pair, and the node
set, unchanged. -/
theorem C9_edge_delete_by_pair (s : RTState) (f t sender : String) :
    ((apply s (.edgeDelete f t) sender).doc.edges =
      s.doc.edges.filter (fun e => !(e.fromNode == f && e.toNode == t))) ∧
    ((apply s (.edgeDelete f t) sender).doc.nodes = s.doc.nodes) ∧
    (∀ e ∈ s.doc.edges, e.fromNode = f → e.toNode = t →
      e ∉ (apply s (.edgeDelete f t) sender).doc.edges) ∧
    (∀ e ∈ s.doc.edges, ¬(e.fromNode = f ∧ e.toNode = t) →
      e ∈ (apply s (.edgeDelete f t) sender).doc.edges) := by
  refine ⟨rfl, rfl, ?_, ?_⟩
  · intro e _ hf ht hmem
    have := (List.mem_filter.mp hmem).2
    simp [hf, ht] at this
  · intro e he hne
    refine List.mem_filter.mpr ⟨he, ?_⟩
    by_cases hf : e.fromNode = f
    · have ht : ¬e.toNode = t := fun ht => hne ⟨hf, ht⟩
      simp [hf, ht]
    · simp [hf]

/-- Claim C10: `node:select{ids, color}` from sender `s` replaces `s`'s
selection entry with `ids` and writes `s`'s cursor entry with the action's
color, keeping the previous cursor position when one exists and defaulting
to (0, 0) otherwise; the document, the pending buffer and every other
sender's presence entries are unchanged. -/
theorem C10_node_select (s : RTState) (ids : List String) (color sender : String) :
    ((apply s (.nodeSelect ids color) sender).doc = s.doc) ∧
    ((apply s (.nodeSelect ids color) sender).pendingUpdates = s.pendingUpdates) ∧
    (getk (apply s (.nodeSelect ids color) sender).selections sender = some ids) ∧
    (getk (apply s (.nodeSelect ids color) sender).cursors sender =
      some ⟨((getk s.cursors sender).map Cursor.x).getD 0,
            ((getk s.cursors sender).map Cursor.y).getD 0, color⟩) ∧
    (∀ k, k ≠ sender →
      getk (apply s (.nodeSelect ids color) sender).selections k = getk s.selections k) ∧
    (∀ k, k ≠ sender →
      getk (apply s (.nodeSelect ids color) sender).cursors k = getk s.cursors k) := by
  refine ⟨rfl, rfl, getk_setk_self _ _ _, getk_setk_self _ _ _, ?_, ?_⟩
  · intro k hk
    exact getk_setk_ne _ _ _ _ hk
  · intro k hk
    exact getk_setk_ne _ _ _ _ hk

/-- Claim C4: deleting a node removes it from the node set and removes
every edge referencing it (cascade), leaving all other nodes and edges
unchanged, identically for a received action and for the local mutation
surface. -/
theorem C4_cascade_delete (s : RTState) (n sender : String)
    (h : ∃ m ∈ s.doc.nodes, m.id = n) :
    ((apply s (.nodeDelete n) sender).doc.nodes =
      s.doc.nodes.filter (fun m => m.id != n)) ∧
    ((apply s (.nodeDelete n) sender).doc.edges =
      s.doc.edges.filter (fun e => e.fromNode != n && e.toNode != n)) ∧
    (∀ m ∈ (apply s (.nodeDelete n) sender).doc.nodes, m.id ≠ n) ∧
    (∀ e ∈ (apply s (.nodeDelete n) sender).doc.edges,
      e.fromNode ≠ n ∧ e.toNode ≠ n) ∧
    (∀ m ∈ s.doc.nodes, m.id ≠ n → m ∈ (apply s (.nodeDelete n) sender).doc.nodes) ∧
    (∀ e ∈ s.doc.edges, e.fromNode ≠ n → e.toNode ≠ n →
      e ∈ (apply s (.nodeDelete n) sender).doc.edges) ∧
    ((apply s (.nodeDelete n) sender).doc = applyDoc s.doc (.nodeDelete n)) := by
  refine ⟨rfl, rfl, ?_, ?_, ?_, ?_, rfl⟩
  · intro m hm
    have hb := (List.mem_filter.mp hm).2
    simpa using hb
  · intro e he
    have hb := (List.mem_filter.mp he).2
    simp only [Bool.and_eq_true, bne_iff_ne] at hb
    exact hb
  · intro m hm hne
    exact List.mem_filter.mpr ⟨hm, by simpa using hne⟩
  · intro e he hf ht
    refine List.mem_filter.mpr ⟨he, ?_⟩
    simp [hf, ht]

/-- Witness for C4 on the concrete sample state. -/
theorem C4_cascade_delete_witness :
    (∃ m ∈ sampleState.doc.nodes, m.id = "n1") ∧
    (∀ e ∈ (apply sampleState (.nodeDelete "n1") "s").doc.edges,
      e.fromNode ≠ "n1" ∧ e.toNode ≠ "n1") :=
  ⟨by decide, (C4_cascade_delete sampleState "n1" "s" (by decide)).2.2.2.1⟩

/-- Counterexample to claim C6 as stated: creating a node whose id already
exists is not a no-op — the node is appended again (and likewise for an
edge with an existing id), so the document changes. -/
theorem C6_counterexample :
    (∃ m ∈ sampleState.doc.nodes, m.id = "n1") ∧
    (apply sampleState (.nodeCreate ⟨"n1", 9, 9, "dup"⟩) "s").doc ≠ sampleState.doc ∧
    (apply sampleState (.nodeCreate ⟨"n1", 9, 9, "dup"⟩) "s").doc.nodes.length =
      sampleState.doc.nodes.length + 1 ∧
    (∃ e ∈ sampleState.doc.edges, e.id = "e1") ∧
    (apply sampleState (.edgeCreate ⟨"e1", "n1", "n2"⟩) "s").doc.edges.length =
      sampleState.doc.edges.length + 1 := by decide

/-- Claim C6 (amended): `node:create` and `edge:create` append the new
entity unconditionally — there is no duplicate-id guard, so an entity
whose id already exists is duplicated rather than left unchanged; on a
node create any buffered fragment for that id is merged into the first
node carrying the id. -/
theorem C6_create_appends (s : RTState) (node : CanvasNode) (edge : Edge)
    (sender : String) :
    ((apply s (.nodeCreate node) sender).doc.nodes =
      match getk s.pendingUpdates node.id with
      | some p => assignFirst (s.doc.nodes ++ [node]) node.id p
      | none => s.doc.nodes ++ [node]) ∧
    ((apply s (.nodeCreate node) sender).doc.nodes.length = s.doc.nodes.length + 1) ∧
    ((apply s (.edgeCreate edge) sender).doc.edges = s.doc.edges ++ [edge]) := by
  refine ⟨?_, ?_, rfl⟩
  · cases h : getk s.pendingUpdates node.id <;> simp [apply, h]
  · cases h : getk s.pendingUpdates node.id <;>
      simp [apply, h, assignFirst_length]

/-- Counterexample to claim C3 as stated: with no node carrying id `n1`
but a dangling edge referencing `n1`, applying `node:delete{id:"n1"}`
changes the document (the dangling edge is removed), so the delete is not
a document no-op. -/
theorem C3_counterexample :
    (∀ m ∈ danglingState.doc.nodes, m.id ≠ "n1") ∧
    (apply danglingState (.nodeDelete "n1") "s").doc ≠ danglingState.doc := by
  decide

/-- Claim C3 (amended): `node:delete{id:n}` unconditionally discards any
buffered pending fragment for `n`; when no node with id `n` exists the
node set is unchanged, and the whole document is unchanged provided
additionally no edge references `n` (edges referencing `n` are removed
regardless of whether the node exists); and in the sequence update `n`,
delete `n`, create a node with id `n`, the created node is appended
verbatim, carrying nothing of the discarded update. -/
theorem C3_delete_discards_pending (s : RTState) (n sender u v w : String)
    (props : NodeProps) (node : CanvasNode) (hid : node.id = n) :
    (getk (apply s (.nodeDelete n) sender).pendingUpdates n = none) ∧
    ((∀ m ∈ s.doc.nodes, m.id ≠ n) →
      (apply s (.nodeDelete n) sender).doc.nodes = s.doc.nodes) ∧
    ((∀ m ∈ s.doc.nodes, m.id ≠ n) →
      (∀ e ∈ s.doc.edges, e.fromNode ≠ n ∧ e.toNode ≠ n) →
      (apply s (.nodeDelete n) sender).doc = s.doc) ∧
    (getk (apply (apply s (.nodeUpdate n props) u) (.nodeDelete n) v).pendingUpdates n
      = none) ∧
    ((apply (apply (apply s (.nodeUpdate n props) u) (.nodeDelete n) v)
        (.nodeCreate node) w).doc.nodes =
      (apply (apply s (.nodeUpdate n props) u) (.nodeDelete n) v).doc.nodes ++ [node]) := by
  refine ⟨getk_delk_self _ _, ?_, ?_, getk_delk_self _ _, ?_⟩
  · intro hn
    show s.doc.nodes.filter (fun m => m.id != n) = s.doc.nodes
    exact List.filter_eq_self.mpr (fun m hm => by simpa using hn m hm)
  · intro hn he
    show ({ s.doc with
      nodes := s.doc.nodes.filter (fun m => m.id != n)
      edges := s.doc.edges.filter (fun e => e.fromNode != n && e.toNode != n) } : Doc)
      = s.doc
    have h1 : s.doc.nodes.filter (fun m => m.id != n) = s.doc.nodes :=
      List.filter_eq_self.mpr (fun m hm => by simpa using hn m hm)
    have h2 : s.doc.edges.filter (fun e => e.fromNode != n && e.toNode != n) =
        s.doc.edges :=
      List.filter_eq_self.mpr (fun e hm => by
        have := he e hm
        simp [this.1, this.2])
    rw [h1, h2]
  · have hp : getk (apply (apply s (.nodeUpdate n props) u) (.nodeDelete n) v).pendingUpdates
        node.id = none := by
      rw [hid]; exact getk_delk_self _ _
    rw [apply_nodeCreate_no_pending _ _ _ hp]

/-- Witness for C3 on the concrete sample state. -/
theorem C3_delete_discards_pending_witness :
    getk (apply (apply sampleState (.nodeUpdate "n9" { x := some 5 }) "u")
      (.nodeDelete "n9") "v").pendingUpdates "n9" = none :=
  (C3_delete_discards_pending sampleState "n9" "s" "u" "v" "w"
    { x := some 5 } ⟨"n9", 0, 0, ""⟩ rfl).2.2.2.1

/-- Claim C5: a local edit broadcasts its action when and only when the
document has no recorded owner, or the local identity equals the owner, or
a session token is established; otherwise zero outbound actions are
produced while the local document still receives the mutation. In
particular an owner `U1` document viewed by `U2` without a token sends
nothing. -/
theorem C5_send_gating (docUserId userId tok : String) (d : Doc)
    (a : RealtimeAction) :
    ((localEdit (canSend docUserId userId tok) d a).2 ≠ [] ↔
      (docUserId = "" ∨ docUserId = userId ∨ tok ≠ "")) ∧
    ((docUserId = "" ∨ docUserId = userId ∨ tok ≠ "") →
      (localEdit (canSend docUserId userId tok) d a).2 = [a]) ∧
    (¬(docUserId = "" ∨ docUserId = userId ∨ tok ≠ "") →
      (localEdit (canSend docUserId userId tok) d a).2 = []) ∧
    ((localEdit (canSend docUserId userId tok) d a).1 = applyDoc d a) ∧
    canSend "U1" "U2" "" = false := by
  have hcs : canSend docUserId userId tok = true ↔
      (docUserId = "" ∨ docUserId = userId ∨ tok ≠ "") := by
    simp [canSend, or_assoc]
  by_cases h : docUserId = "" ∨ docUserId = userId ∨ tok ≠ ""
  · have hb : canSend docUserId userId tok = true := hcs.mpr h
    refine ⟨?_, fun _ => ?_, fun hn => absurd h hn, rfl, by decide⟩
    · simp [localEdit, sendIfAllowed, hb, h]
    · simp [localEdit, sendIfAllowed, hb]
  · have hb : canSend docUserId userId tok = false := by
      rcases hb2 : canSend docUserId userId tok with _ | _
      · rfl
      · exact absurd (hcs.mp hb2) h
    refine ⟨?_, fun hh => absurd hh h, fun _ => ?_, rfl, by decide⟩
    · simp [localEdit, sendIfAllowed, hb, h]
    · simp [localEdit, sendIfAllowed, hb]

/-- Claim C2: when no node with id `n` exists, `node:update{id:n, props}`
leaves the document unchanged and buffers `props` under `n`
(last-writer-wins per field); a later `node:create` for id `n` merges the
buffered fragment into the newly created node and discards the fragment —
in particular `node:update{id:"n1",props:{x:5}}` before
`node:create{node:{id:"n1",x:0,y:0}}` yields node `n1` with `x = 5`. -/
theorem C2_pending_update_resolution (s : RTState) (n : String)
    (props : NodeProps) (node : CanvasNode) (u v : String)
    (hn : ∀ m ∈ s.doc.nodes, m.id ≠ n) (hid : node.id = n) :
    ((apply s (.nodeUpdate n props) u).doc = s.doc) ∧
    (getk (apply s (.nodeUpdate n props) u).pendingUpdates n =
      some (assignProps ((getk s.pendingUpdates n).getD {}) props)) ∧
    ((apply (apply s (.nodeUpdate n props) u) (.nodeCreate node) v).doc.nodes =
      s.doc.nodes ++
        [assignNode node (assignProps ((getk s.pendingUpdates n).getD {}) props)]) ∧
    (getk (apply (apply s (.nodeUpdate n props) u) (.nodeCreate node) v).pendingUpdates n
      = none) ∧
    ((apply (apply (⟨⟨"", "", "", "", [], []⟩, [], [], []⟩ : RTState)
        (.nodeUpdate "n1" { x := some 5 }) u)
        (.nodeCreate ⟨"n1", 0, 0, ""⟩) v).doc.nodes.map
          (fun m => (m.id, m.x)) = [("n1", 5)]) := by
  have hany : (s.doc.nodes.any fun m => m.id == n) = false := by
    rw [Bool.eq_false_iff]
    intro hc
    rcases List.any_eq_true.mp hc with ⟨m, hm, hmn⟩
    exact hn m hm (by simpa using hmn)
  have e1 : apply s (.nodeUpdate n props) u =
      { s with pendingUpdates := (setk s.pendingUpdates n
          (assignProps ((getk s.pendingUpdates n).getD
            ⟨none, none, none, none⟩) props)) } := by
    simp [apply, hany]
  have hp : getk (apply s (.nodeUpdate n props) u).pendingUpdates node.id =
      some (assignProps ((getk s.pendingUpdates n).getD {}) props) := by
    rw [e1, hid]
    exact getk_setk_self _ _ _
  have e2 := apply_nodeCreate_pending (apply s (.nodeUpdate n props) u) node v _ hp
  refine ⟨by rw [e1], by rw [e1]; exact getk_setk_self _ _ _, ?_, ?_, rfl⟩
  · rw [e2, e1]
    exact assignFirst_append_not_mem s.doc.nodes node node.id _
      (fun m hm => hid ▸ hn m hm) rfl
  · rw [e2, hid]
    exact getk_delk_self _ _

/-- Witness for C2 on the concrete sample state. -/
theorem C2_pending_update_resolution_witness :
    (∀ m ∈ sampleState.doc.nodes, m.id ≠ "n9") ∧
    ((apply (apply sampleState (.nodeUpdate "n9" { x := some 5 }) "u")
      (.nodeCreate ⟨"n9", 0, 0, ""⟩) "v").doc.nodes =
      sampleState.doc.nodes ++
        [assignNode ⟨"n9", 0, 0, ""⟩
          (assignProps ((getk sampleState.pendingUpdates "n9").getD {})
            { x := some 5 })]) :=
  ⟨by decide,
    (C2_pending_update_resolution sampleState "n9" { x := some 5 }
      ⟨"n9", 0, 0, ""⟩ "u" "v" (by decide) rfl).2.2.1⟩

/-- Counterexample to claim C8 as stated: a `node:update` whose props
carry an `id` field different from the targeted id is not idempotent —
the first application renames the node, the second finds no node with the
original id and buffers a pending fragment. -/
theorem C8_counterexample :
    isCreate (.nodeUpdate "n1" { id := some "nX" }) = false ∧
    apply (apply sampleState (.nodeUpdate "n1" { id := some "nX" }) "s")
        (.nodeUpdate "n1" { id := some "nX" }) "s" ≠
      apply sampleState (.nodeUpdate "n1" { id := some "nX" }) "s" := by
  decide

/-- Claim C8 (amended): every action other than `node:create` and
`edge:create` is idempotent — applying it twice in succession equals
applying it once — except that a `node:update` is only idempotent when its
props do not carry an `id` field differing from the targeted id. -/
theorem C8_idempotent_non_create (s : RTState) (a : RealtimeAction)
    (sender : String) (hc : isCreate a = false)
    (hu : ∀ i props, a = .nodeUpdate i props → props.id = none ∨ props.id = some i) :
    apply (apply s a sender) a sender = apply s a sender := by
  cases a with
  | nodeCreate node => simp [isCreate] at hc
  | edgeCreate edge => simp [isCreate] at hc
  | nodeUpdate i props =>
    have hid := hu i props rfl
    cases hx : (s.doc.nodes.any fun m => m.id == i) with
    | true =>
      have e1 : apply s (.nodeUpdate i props) sender =
          { s with doc := { s.doc with nodes := assignFirst s.doc.nodes i props } } := by
        simp [apply, hx]
      have h2 : ((assignFirst s.doc.nodes i props).any fun m => m.id == i) = true := by
        rw [any_assignFirst _ _ _ hid]; exact hx
      rw [e1]
      simp [apply, h2, assignFirst_idem _ _ _ hid]
    | false =>
      have e1 : apply s (.nodeUpdate i props) sender =
          { s with pendingUpdates := (setk s.pendingUpdates i
              (assignProps ((getk s.pendingUpdates i).getD
                ⟨none, none, none, none⟩) props)) } := by
        simp [apply, hx]
      rw [e1]
      simp [apply, hx, getk_setk_self, assignProps_absorb, setk_setk]
  | nodeDelete i =>
    simp [apply, filter_idem, delk_delk]
  | edgeDelete f t =>
    simp [apply, filter_idem]
  | spaceBackground color => simp [apply]
  | spaceTitle title => simp [apply]
  | cursorMove x y color => simp [apply, setk_setk]
  | nodeSelect ids color =>
    simp [apply, getk_setk_self, setk_setk]

/-- Witness for C8 on the concrete sample state with a `node:update`
whose props do not touch the id. -/
theorem C8_idempotent_non_create_witness :
    isCreate (.nodeUpdate "n1" { x := some 7 }) = false ∧
    apply (apply sampleState (.nodeUpdate "n1" { x := some 7 }) "s")
        (.nodeUpdate "n1" { x := some 7 }) "s" =
      apply sampleState (.nodeUpdate "n1" { x := some 7 }) "s" :=
  ⟨by decide,
    C8_idempotent_non_create sampleState (.nodeUpdate "n1" { x := some 7 }) "s"
      (by decide)
      (by
        intro i props h
        cases h
        exact Or.inl rfl)⟩

end Spacenotes
